import Mathlib

/-!
Verification of the fetch/cache/rate-limit orchestration layer of the
reddit-snark-detector repository.

The repository contains two near-identical variants of the same
orchestration logic: the snark-detector variant (content.js, plain
functions) and the user-vibe variant (storage.js and the unnamed
RUV module).  Definitions below are shallow embeddings of the source
functions; timestamps are epoch milliseconds modelled as Nat, and the
floating-point value produced by parseFloat on the x-ratelimit-remaining
header is modelled as Rat.
-/

/-- Embeds the parsed result of the x-ratelimit-* headers
(parseRateLimit in content.js lines 182-187 and RUV._parseRateLimit in
the unnamed API module lines 38-43, both textually identical):
remaining is the parseFloat of the x-ratelimit-remaining header and
reset the parseInt of the x-ratelimit-reset header. -/
structure RateLimitInfo where
  remaining : Rat
  reset : Nat
  deriving DecidableEq, Repr

/-- Embeds parseRateLimit: a header is modelled as an Option carrying
its already-parsed numeric value; an absent remaining header defaults
to 99 (the source writes parseFloat of the string 99) and an absent
reset header defaults to 0 (parseInt of the string 0). -/
def parseRateLimit (remainingHdr : Option Rat) (resetHdr : Option Nat) : RateLimitInfo :=
  { remaining := remainingHdr.getD 99, reset := resetHdr.getD 0 }

/-- Embeds the rate-limit update performed by fetchSubredditCount
(content.js lines 246-257) and identically by RUV.fetchUserSubreddits
(lines 116-127) after a response arrives: if remaining is below 2 the
pause deadline is assigned now plus reset seconds, and on HTTP status
429 it is assigned the same value again.  The two Date.now() reads in
that synchronous block are modelled as the single instant now.  The
assignments are plain assignments, not maxima with the old value. -/
def applyRateLimitHeaders (pauseUntil now : Nat) (rl : RateLimitInfo) (status : Nat) : Nat :=
  let p1 := if rl.remaining < 2 then now + rl.reset * 1000 else pauseUntil
  if status = 429 then now + rl.reset * 1000 else p1

/-- Embeds the shared rate-limiter state: the pause deadline
rateLimitPauseUntil (content.js line 157, initial 0) together with the
one-shot clear signal (line 164).  Concrete signal objects are
abstracted by a generation counter: signalGen is the generation of the
currently installed signal, and a signal is replaced exactly when it
is resolved by clearRateLimit, so the resolved signals are precisely
the superseded generations. -/
structure RateLimiterState where
  pauseUntil : Nat
  signalGen : Nat
  deriving DecidableEq, Repr

/-- The initial rate-limiter state: not paused, first signal installed. -/
def initRateLimiter : RateLimiterState := { pauseUntil := 0, signalGen := 0 }

/-- Embeds clearRateLimit (content.js lines 212-216, RUV.clearRateLimit
lines 69-73): sets the pause deadline to zero, resolves the current
signal and installs a brand-new signal for future sleeps (the
generation advances). -/
def clearRateLimit (s : RateLimiterState) : RateLimiterState :=
  { pauseUntil := 0, signalGen := s.signalGen + 1 }

/-- A signal generation is resolved exactly when it has been superseded
by clearRateLimit: every clear resolves the then-current signal and
nothing else ever resolves one. -/
def signalResolved (s : RateLimiterState) (g : Nat) : Bool :=
  g < s.signalGen

/-- Embeds the loop guard of waitIfRateLimited (content.js line 196,
RUV._waitIfRateLimited line 53): the caller suspends while the current
time is strictly before the pause deadline. -/
def waitLoopActive (s : RateLimiterState) (now : Nat) : Bool :=
  now < s.pauseUntil

/-- Embeds MAX_RETRIES (content.js line 461). -/
def MAX_RETRIES : Nat := 5

/-- Embeds the backoff computation of processLink (content.js line
495): two to the power attempt plus one, times 1000 ms, capped at
60000 ms. -/
def backoff (attempt : Nat) : Nat :=
  min (2 ^ (attempt + 1) * 1000) 60000

/-- Embeds the retry delay of processLink (content.js line 496): the
maximum of the remaining pause window and the exponential backoff.
The subtraction is over Int, as in the source, where a deadline in the
past yields a negative remaining window. -/
def retryAfter (pauseUntil now : Nat) (attempt : Nat) : Int :=
  max ((pauseUntil : Int) - (now : Int)) ((backoff attempt : Nat) : Int)

/-- One record of the user-vibe payload: the response shape of the
Arctic Shift API, a list of subreddit and count pairs. -/
structure SubCount where
  subreddit : String
  count : Nat
  deriving DecidableEq, Repr

/-- Embeds a cache entry as written by RUV.setCachedUser (storage.js
lines 103-108): the payload stamped with the write time. -/
structure VibeEntry where
  fetchedAt : Nat
  data : List SubCount
  deriving DecidableEq, Repr

/-- Embeds RUV.setCachedUser: stamps the payload with the current time. -/
def setCachedUser (now : Nat) (data : List SubCount) : VibeEntry :=
  { fetchedAt := now, data := data }

/-- Embeds RUV.getCachedUser (storage.js lines 75-80): absent entry
gives null; an entry whose age is at least cacheDurationMs gives null;
otherwise the stored data is returned.  The age is computed over Int
as in the source. -/
def getCachedUser (entry : Option VibeEntry) (now cacheDurationMs : Nat) : Option (List SubCount) :=
  match entry with
  | none => none
  | some e =>
      if ((now : Int) - (e.fetchedAt : Int)) ≥ (cacheDurationMs : Int) then none
      else some e.data

/-- Embeds the cache-write decision in the fetch body of
RUV.getUserData (unnamed module lines 167-173): a null fetch result is
never written, a non-null result is stamped and written. -/
def vibeCacheWrite (now : Nat) (fetchResult : Option (List SubCount)) : Option VibeEntry :=
  match fetchResult with
  | none => none
  | some d => some (setCachedUser now d)

/-- Embeds CACHE_DURATION_MS (content.js line 8): seven days in ms. -/
def CACHE_DURATION_MS : Nat := 7 * 24 * 60 * 60 * 1000

/-- One per-subreddit fetch result of the snark-detector variant
(fetchSubredditCount, content.js lines 265-268). -/
structure CountResult where
  count : Nat
  hasMore : Bool
  deriving DecidableEq, Repr

/-- The snark-detector payload: for each tracked subreddit, either a
fetched count record or null when that fetch failed.  Modelled as an
association list in the fixed key order the source builds with
Object.fromEntries. -/
abbrev SnarkData := List (String × Option CountResult)

/-- A snark-detector cache entry as written by getUserData
(content.js line 309). -/
structure SnarkEntry where
  fetchedAt : Nat
  data : SnarkData
  deriving DecidableEq, Repr

/-- Embeds the cache-write decision inside getUserData
(content.js lines 308-310): the entry is written only when at least
one per-subreddit value is non-null. -/
def snarkShouldCache (data : SnarkData) : Bool :=
  data.any fun p => p.2.isSome

/-- The cache write performed by getUserData when it should cache:
stamped entry on some non-null value, no write otherwise. -/
def snarkCacheWrite (now : Nat) (data : SnarkData) : Option SnarkEntry :=
  if snarkShouldCache data then some { fetchedAt := now, data := data } else none

/-- Embeds the cache-serve guard of getUserData (content.js lines
285-291): a stored entry is served only when it exists, its age is
strictly below CACHE_DURATION_MS, and some per-subreddit value is
non-null; otherwise control falls through to a fresh fetch. -/
def snarkCacheServe (entry : Option SnarkEntry) (now : Nat) : Option SnarkData :=
  match entry with
  | none => none
  | some e =>
      if ((now : Int) - (e.fetchedAt : Int)) < (CACHE_DURATION_MS : Int)
          ∧ e.data.any (fun p => p.2.isSome) = true
      then some e.data else none

/-- C4: for every attempt with no active pause, the backoff is the
capped exponential min of two to the attempt plus one times 1000 and
60000; the first five attempts give exactly 2000, 4000, 8000, 16000
and 32000 ms, and any attempt whose exponential term exceeds the cap
gives exactly 60000 ms. -/
theorem backoff_spec (a : Nat) :
    backoff a = min (2 ^ (a + 1) * 1000) 60000
    ∧ backoff 0 = 2000 ∧ backoff 1 = 4000 ∧ backoff 2 = 8000
    ∧ backoff 3 = 16000 ∧ backoff 4 = 32000
    ∧ (60000 < 2 ^ (a + 1) * 1000 → backoff a = 60000) := by
  refine ⟨rfl, by decide, by decide, by decide, by decide, by decide, fun h => ?_⟩
  simpa [backoff] using min_eq_right (le_of_lt h)

/-- Witness for backoff_spec at attempt 5, where the exponential term
64000 exceeds the cap. -/
theorem backoff_spec_witness :
    60000 < 2 ^ (5 + 1) * 1000 ∧ backoff 5 = 60000 :=
  ⟨by decide, (backoff_spec 5).2.2.2.2.2.2 (by decide)⟩

/-- C5: the scheduled retry delay equals the maximum of the backoff
and the remaining pause window, and whenever the rate-limit deadline
lies further away than the backoff the delay is exactly the remaining
window, never sooner. -/
theorem retryAfter_spec (pu now a : Nat) :
    retryAfter pu now a = max ((backoff a : Nat) : Int) ((pu : Int) - (now : Int))
    ∧ (((backoff a : Nat) : Int) < (pu : Int) - (now : Int) →
        retryAfter pu now a = (pu : Int) - (now : Int)) := by
  constructor
  · simp [retryAfter, max_comm]
  · intro h
    simp [retryAfter, max_eq_left (le_of_lt h)]

/-- Witness for retryAfter_spec: deadline 10 s away, attempt 0 backoff
2 s, scheduled delay is the full 10 s. -/
theorem retryAfter_spec_witness :
    ((backoff 0 : Nat) : Int) < (10000 : Int) - (0 : Int)
    ∧ retryAfter 10000 0 0 = (10000 : Int) - (0 : Int) :=
  ⟨by decide, (retryAfter_spec 10000 0 0).2 (by decide)⟩

/-- C2 counterexample: with the pause deadline at 70000 (in the future
relative to now = 10000), a throttling response reporting remaining 1
and a reset of 5 seconds reassigns the deadline to 15000, which is
strictly earlier — the deadline moves backward, contradicting the
claimed forward-only invariant. -/
theorem pauseUntil_moves_backward :
    (10000 : Nat) < 70000
    ∧ applyRateLimitHeaders 70000 10000 { remaining := 1, reset := 5 } 200 < 70000 := by
  constructor
  · decide
  · show (if (1 : Rat) < 2 then 10000 + 5 * 1000 else 70000) < 70000
    norm_num

/-- C2 amended: on a throttling response (fewer than 2 remaining, or
status 429) the pause deadline is reassigned to now plus reset seconds
regardless of its current value, so it can move backward when the new
estimate is smaller; a non-throttling response leaves it unchanged;
the clear operation resets it to zero. -/
theorem pauseUntil_update_spec (pu now : Nat) (rl : RateLimitInfo) (status : Nat)
    (s : RateLimiterState) :
    ((rl.remaining < 2 ∨ status = 429) →
      applyRateLimitHeaders pu now rl status = now + rl.reset * 1000)
    ∧ (¬ rl.remaining < 2 → status ≠ 429 → applyRateLimitHeaders pu now rl status = pu)
    ∧ (clearRateLimit s).pauseUntil = 0 := by
  refine ⟨fun h => ?_, fun h1 h2 => ?_, rfl⟩
  · rcases h with h | h
    · by_cases h429 : status = 429 <;> simp [applyRateLimitHeaders, h, h429]
    · simp [applyRateLimitHeaders, h]
  · simp [applyRateLimitHeaders, h1, h2]

/-- Witness for pauseUntil_update_spec at the concrete throttling
response of the counterexample. -/
theorem pauseUntil_update_spec_witness :
    applyRateLimitHeaders 70000 10000 { remaining := 1, reset := 5 } 200 = 10000 + 5 * 1000 :=
  (pauseUntil_update_spec 70000 10000 { remaining := 1, reset := 5 } 200
    initRateLimiter).1 (Or.inl (by norm_num))

/-- C9: absent rate-limit headers parse to remaining 99 and reset 0,
99 does not satisfy the fewer-than-2 test, and consequently a non-429
response carrying no rate-limit headers leaves the pause deadline
exactly where it was. -/
theorem parseRateLimit_defaults (pu now status : Nat) (h : status ≠ 429) :
    parseRateLimit none none = { remaining := 99, reset := 0 }
    ∧ ¬ (parseRateLimit none none).remaining < 2
    ∧ applyRateLimitHeaders pu now (parseRateLimit none none) status = pu := by
  refine ⟨rfl, by norm_num [parseRateLimit], ?_⟩
  simp [applyRateLimitHeaders, parseRateLimit, h]
  norm_num

/-- Witness for parseRateLimit_defaults at a concrete OK response. -/
theorem parseRateLimit_defaults_witness :
    applyRateLimitHeaders 12345 777 (parseRateLimit none none) 200 = 12345 :=
  (parseRateLimit_defaults 12345 777 200 (by decide)).2.2

/-- C3: a failed fetch never reaches the cache.  In the snark-detector
variant a payload whose per-subreddit values are all null is never
written and every write carries at least one non-null value; in the
user-vibe variant a null fetch result is never written and only
non-null results are stamped and written. -/
theorem no_cache_on_failure (now : Nat) :
    (∀ data : SnarkData, (∀ p ∈ data, p.2 = none) → snarkCacheWrite now data = none)
    ∧ (∀ (data : SnarkData) (e : SnarkEntry),
        snarkCacheWrite now data = some e → ∃ p ∈ data, p.2.isSome)
    ∧ vibeCacheWrite now none = none
    ∧ (∀ d : List SubCount, vibeCacheWrite now (some d) = some (setCachedUser now d)) := by
  refine ⟨fun data hall => ?_, fun data e hw => ?_, rfl, fun d => rfl⟩
  · have hno : snarkShouldCache data = false := by
      simp only [snarkShouldCache, List.any_eq_false]
      intro p hp
      simp [hall p hp]
    simp [snarkCacheWrite, hno]
  · by_cases hc : snarkShouldCache data = true
    · simpa [snarkShouldCache, List.any_eq_true] using hc
    · simp [snarkCacheWrite, hc] at hw

/-- Witness for no_cache_on_failure: the all-null three-subreddit
payload is not written. -/
theorem no_cache_on_failure_witness :
    snarkCacheWrite 1000
      [("LeftoversH3", none), ("h3snark", none), ("Hasan_Piker", none)] = none :=
  (no_cache_on_failure 1000).1
    [("LeftoversH3", none), ("h3snark", none), ("Hasan_Piker", none)] (by decide)

/-- C6: a cache entry written at t0 with time-to-live ttl is returned
by get at every time t with t - t0 strictly below ttl, and get returns
null at every t with t - t0 at least ttl, exactly as for an absent
entry; in particular the entry is served at t0 + ttl - 1 (for positive
ttl) and missed at t0 + ttl + 1. -/
theorem cache_ttl_spec (t0 ttl t : Nat) (data : List SubCount) :
    (((t : Int) - (t0 : Int)) < (ttl : Int) →
      getCachedUser (some (setCachedUser t0 data)) t ttl = some data)
    ∧ (((t : Int) - (t0 : Int)) ≥ (ttl : Int) →
      getCachedUser (some (setCachedUser t0 data)) t ttl = none)
    ∧ getCachedUser none t ttl = none
    ∧ (0 < ttl → getCachedUser (some (setCachedUser t0 data)) (t0 + ttl - 1) ttl = some data)
    ∧ getCachedUser (some (setCachedUser t0 data)) (t0 + ttl + 1) ttl = none := by
  refine ⟨fun h => ?_, fun h => ?_, rfl, fun h => ?_, ?_⟩
  · simp only [getCachedUser, setCachedUser]
    rw [if_neg (by omega)]
  · simp only [getCachedUser, setCachedUser]
    rw [if_pos (by omega)]
  · simp only [getCachedUser, setCachedUser]
    rw [if_neg ?_]
    have : ((t0 + ttl - 1 : Nat) : Int) = (t0 : Int) + ttl - 1 := by omega
    omega
  · simp only [getCachedUser, setCachedUser]
    rw [if_pos ?_]
    push_cast
    omega

/-- Witness for cache_ttl_spec: an entry written at 10 with ttl 5 is
served at 12. -/
theorem cache_ttl_spec_witness :
    getCachedUser (some (setCachedUser 10 [{ subreddit := "a", count := 1 }])) 12 5
      = some [{ subreddit := "a", count := 1 }] :=
  (cache_ttl_spec 10 5 12 [{ subreddit := "a", count := 1 }]).1 (by decide)

/-- C10: in the snark-detector variant an unexpired cache entry whose
values are all null is treated as a miss (control falls through to a
fresh fetch), and an entry is served exactly when it is unexpired and
at least one per-subreddit value is non-null. -/
theorem snark_allnull_cache_miss (e : SnarkEntry) (now : Nat) :
    ((∀ p ∈ e.data, p.2 = none) → snarkCacheServe (some e) now = none)
    ∧ (snarkCacheServe (some e) now = some e.data ↔
        ((now : Int) - (e.fetchedAt : Int)) < (CACHE_DURATION_MS : Int)
        ∧ ∃ p ∈ e.data, p.2.isSome) := by
  constructor
  · intro hall
    have hno : e.data.any (fun p => p.2.isSome) = false := by
      simp only [List.any_eq_false]
      intro p hp
      simp [hall p hp]
    simp [snarkCacheServe, hno]
  · constructor
    · intro hserve
      by_cases hcond : ((now : Int) - (e.fetchedAt : Int)) < (CACHE_DURATION_MS : Int)
          ∧ e.data.any (fun p => p.2.isSome) = true
      · exact ⟨hcond.1, by simpa [List.any_eq_true] using hcond.2⟩
      · simp [snarkCacheServe, if_neg hcond] at hserve
    · intro ⟨hfresh, hsome⟩
      have hany : e.data.any (fun p => p.2.isSome) = true := by
        simpa [List.any_eq_true] using hsome
      simp [snarkCacheServe, if_pos (And.intro hfresh hany)]

/-- Witness for snark_allnull_cache_miss: the all-null entry written at
time 0 is a miss at time 1000 even though it is unexpired. -/
theorem snark_allnull_cache_miss_witness :
    snarkCacheServe
      (some { fetchedAt := 0,
              data := [("LeftoversH3", none), ("h3snark", none), ("Hasan_Piker", none)] })
      1000 = none :=
  (snark_allnull_cache_miss
    { fetchedAt := 0,
      data := [("LeftoversH3", none), ("h3snark", none), ("Hasan_Piker", none)] }
    1000).1 (by decide)

/-- C8: clearRateLimit sets the pause deadline to zero so that every
subsequent waitIfRateLimited check returns without suspending, resolves
the currently installed wake signal so every caller suspended on it is
released (all waiters hold the current generation, since the wait loop
always awaits the currently installed signal), and installs a fresh
signal whose generation is new and unresolved, so a waiter arriving
after the clear does not observe a stale resolution. -/
theorem clearRateLimit_spec (s : RateLimiterState) (now : Nat) :
    (clearRateLimit s).pauseUntil = 0
    ∧ waitLoopActive (clearRateLimit s) now = false
    ∧ signalResolved (clearRateLimit s) s.signalGen = true
    ∧ signalResolved (clearRateLimit s) (clearRateLimit s).signalGen = false
    ∧ (clearRateLimit s).signalGen ≠ s.signalGen := by
  refine ⟨rfl, ?_, ?_, ?_, ?_⟩
  · simp [waitLoopActive, clearRateLimit]
  · simp [signalResolved, clearRateLimit]
  · simp [signalResolved, clearRateLimit]
  · simp [clearRateLimit]

/-- The outcome of one fetch attempt as observed by processLink
(content.js line 483): failure means the user data was null or every
per-subreddit value was null; success means some value was non-null. -/
inductive FetchOutcome where
  | success
  | failure
  deriving DecidableEq, Repr

/-- The externally visible action taken by one processLink invocation:
skipped (node already in the processed set, content.js line 474),
rendered (labels appended on success, line 504), gaveUp (loading badge
removed, lines 484-488), or a retry scheduled with the next attempt
number (lines 499-500). -/
inductive PLAction where
  | skipped
  | rendered
  | gaveUp
  | scheduledRetry (next : Nat)
  deriving DecidableEq, Repr

/-- Embeds one invocation of processLink (content.js lines 473-505) on
one tracked link node: given whether the node is currently in the
processed WeakSet, the attempt argument, and the fetch outcome, it
returns the new processed membership, the action taken, and whether a
Fetcher invocation occurred.  A node already processed returns at once
with no fetch; on failure with attempt at least MAX_RETRIES the node
gives up and stays processed; on an earlier failure the node is removed
from the processed set and a retry with attempt plus one is scheduled. -/
def processLink (processed : Bool) (attempt : Nat) (outcome : FetchOutcome) :
    Bool × PLAction × Bool :=
  if processed then (true, PLAction.skipped, false)
  else
    match outcome with
    | FetchOutcome.success => (true, PLAction.rendered, true)
    | FetchOutcome.failure =>
        if MAX_RETRIES ≤ attempt then (true, PLAction.gaveUp, true)
        else (false, PLAction.scheduledRetry (attempt + 1), true)

/-- The retry lifecycle of one tracked link node: awaiting a means the
node is outside the processed set with a processLink call carrying that
attempt number pending (a freshly discovered node awaits attempt 0);
givenUp and succeeded are the states in which the node remains inside
the processed set for the rest of the session. -/
inductive NodeLifecycle where
  | awaiting (attempt : Nat)
  | givenUp
  | succeeded
  deriving DecidableEq, Repr

/-- Whether the processed WeakSet contains the node in this lifecycle
state: it is deleted again before a retry is scheduled (content.js
line 499) and kept forever at give-up and success. -/
def processedFlag : NodeLifecycle → Bool
  | NodeLifecycle.awaiting _ => false
  | NodeLifecycle.givenUp => true
  | NodeLifecycle.succeeded => true

/-- The attempt argument carried by the pending call, when one exists;
in the terminal states any later call short-circuits on the processed
check before the attempt value is consulted. -/
def attemptOf : NodeLifecycle → Nat
  | NodeLifecycle.awaiting a => a
  | NodeLifecycle.givenUp => 0
  | NodeLifecycle.succeeded => 0

/-- One resolution cycle under a failing fetcher: the pending
processLink call runs and, whenever a fetch occurs, it fails.  Returns
the next lifecycle state and whether a Fetcher invocation occurred,
interpreting the action returned by processLink. -/
def failStep (s : NodeLifecycle) : NodeLifecycle × Bool :=
  match processLink (processedFlag s) (attemptOf s) FetchOutcome.failure with
  | (_, PLAction.skipped, f) => (s, f)
  | (_, PLAction.rendered, f) => (NodeLifecycle.succeeded, f)
  | (_, PLAction.gaveUp, f) => (NodeLifecycle.givenUp, f)
  | (_, PLAction.scheduledRetry next, f) => (NodeLifecycle.awaiting next, f)

/-- k consecutive failing resolution cycles starting from a freshly
discovered node: the resulting lifecycle state and the total number of
Fetcher invocations performed. -/
def runFailures : Nat → NodeLifecycle × Nat
  | 0 => (NodeLifecycle.awaiting 0, 0)
  | k + 1 =>
      let p := runFailures k
      let q := failStep p.1
      (q.1, p.2 + (if q.2 then 1 else 0))

/-- Embeds the manual retry click handler (content.js lines 514-529):
the node is deleted from the processed set and processLink is re-entered
with attempt 0, so the node awaits attempt 0 again (the handler also
calls clearRateLimit, covered separately). -/
def manualRetry (_ : NodeLifecycle) : NodeLifecycle :=
  NodeLifecycle.awaiting 0

/-- C7: under consecutive failures the node performs exactly
MAX_RETRIES plus one Fetcher invocations (the initial attempt plus
MAX_RETRIES retries, the last failing at attempt MAX_RETRIES) and then
reaches the terminal givenUp state; the fetch total never grows beyond
that bound afterwards, any processLink call on a processed node
performs no fetch whatsoever, and the manual retry resets the node to
awaiting attempt 0, from which the next cycle fetches again. -/
theorem giveup_terminal :
    runFailures (MAX_RETRIES + 1) = (NodeLifecycle.givenUp, MAX_RETRIES + 1)
    ∧ (∀ k, runFailures (MAX_RETRIES + 1 + k) = (NodeLifecycle.givenUp, MAX_RETRIES + 1))
    ∧ (∀ (a : Nat) (o : FetchOutcome), processLink true a o = (true, PLAction.skipped, false))
    ∧ manualRetry NodeLifecycle.givenUp = NodeLifecycle.awaiting 0
    ∧ attemptOf (manualRetry NodeLifecycle.givenUp) = 0
    ∧ (failStep (manualRetry NodeLifecycle.givenUp)).2 = true := by
  refine ⟨by decide, fun k => ?_, fun a o => rfl, rfl, rfl, by decide⟩
  induction k with
  | zero => decide
  | succ n ih =>
      show runFailures (MAX_RETRIES + 1 + n + 1) = _
      rw [runFailures, ih]
      decide

/-- The phase of one concurrent getUserData caller (content.js lines
284-322): reading while awaiting the storageGet cache read; missed
once the read returned a miss, just before the synchronous in-flight
check; joined fid once the caller holds the in-flight promise of fetch
number fid; done res once that promise settled with result res
(results are abstracted to Nat codes, equal codes meaning the
identical outcome object). -/
inductive CallerPhase where
  | reading
  | missed
  | joined (fid : Nat)
  | done (res : Nat)
  deriving DecidableEq, Repr

/-- The shared coalescing state for one username: the phase of every
caller (indexed by Nat, callers at least N never step), the in-flight
map entry for this username (content.js line 273), the number of
Fetcher invocations launched so far (each launch is given the next
fetch number), and the list of fetch numbers whose promise has
settled. -/
structure InFlightState where
  phase : Nat → CallerPhase
  inFlight : Option Nat
  fetchCount : Nat
  settled : List Nat

/-- The initial coalescing state: every caller is still awaiting its
cache read, the in-flight map has no entry for this username and no
fetch has been launched. -/
def initInFlight : InFlightState :=
  { phase := fun _ => CallerPhase.reading
    inFlight := none
    fetchCount := 0
    settled := [] }

/-- The event-loop interleaving semantics of N concurrent getUserData
calls for one username.  Each step is one atomic scheduling slice of
the cooperative single-threaded event loop:

cacheMiss: the storageGet promise of caller i resolves with a miss
(content.js lines 285-292 falling through).

joinExisting: caller i runs the synchronous block at lines 297-299
finding an entry, and joins that pending promise.

joinFresh: caller i runs the synchronous block at lines 297-316
finding no entry: it creates the fetch promise and registers it in the
in-flight map.  The check, the launch and the insert form this single
step because the source contains no await between line 297 and line
316 — the IIFE body suspends at its first await and control returns
synchronously to the insert, which is the no-suspension-between-check-
and-insert invariant of the claim.

settle: the promise of an already-launched fetch settles.

observe: caller i, which awaited fetch f, resumes after f settled and
receives the result of f.

deleteEntry: the finally block of the registering caller (line 320)
removes the settled entry from the in-flight map. -/
inductive CoStep (N : Nat) (results : Nat → Nat) : InFlightState → InFlightState → Prop where
  | cacheMiss (s : InFlightState) (i : Nat) :
      i < N →
      s.phase i = CallerPhase.reading →
      CoStep N results s { s with phase := Function.update s.phase i CallerPhase.missed }
  | joinExisting (s : InFlightState) (i f : Nat) :
      i < N →
      s.phase i = CallerPhase.missed →
      s.inFlight = some f →
      CoStep N results s { s with phase := Function.update s.phase i (CallerPhase.joined f) }
  | joinFresh (s : InFlightState) (i : Nat) :
      i < N →
      s.phase i = CallerPhase.missed →
      s.inFlight = none →
      CoStep N results s
        { s with
          phase := Function.update s.phase i (CallerPhase.joined s.fetchCount)
          inFlight := some s.fetchCount
          fetchCount := s.fetchCount + 1 }
  | settle (s : InFlightState) (f : Nat) :
      f < s.fetchCount →
      CoStep N results s { s with settled := f :: s.settled }
  | observe (s : InFlightState) (i f : Nat) :
      i < N →
      s.phase i = CallerPhase.joined f →
      f ∈ s.settled →
      CoStep N results s { s with phase := Function.update s.phase i (CallerPhase.done (results f)) }
  | deleteEntry (s : InFlightState) (f : Nat) :
      s.inFlight = some f →
      f ∈ s.settled →
      CoStep N results s { s with inFlight := none }

/-- Reachability in the coalescing semantics. -/
def CoReaches (N : Nat) (results : Nat → Nat) : InFlightState → InFlightState → Prop :=
  Relation.ReflTransGen (CoStep N results)

/-- Invariant holding in every reachable state in which no fetch has
settled yet: at most one fetch has been launched, the in-flight entry
is exactly fetch 0 and exists exactly when a fetch was launched, every
joined caller joined fetch 0, and nobody is done. -/
def PreSettleInv (s : InFlightState) : Prop :=
  s.fetchCount ≤ 1
  ∧ (∀ f, s.inFlight = some f → f = 0 ∧ s.fetchCount = 1)
  ∧ (s.inFlight = none → s.fetchCount = 0)
  ∧ (∀ i f, s.phase i = CallerPhase.joined f → f = 0 ∧ s.fetchCount = 1)
  ∧ (∀ i r, s.phase i ≠ CallerPhase.done r)

/-- One step preserves the pre-settle invariant, conditioned on the
target state still having an empty settled list. -/
theorem preSettleInv_step {N : Nat} {results : Nat → Nat} {s t : InFlightState}
    (hstep : CoStep N results s t)
    (ih : s.settled = [] → PreSettleInv s)
    (hempty : t.settled = []) : PreSettleInv t := by
  cases hstep with
  | cacheMiss i hi hp =>
      obtain ⟨h1, h2, h3, h4, h5⟩ := ih hempty
      refine ⟨h1, h2, h3, fun j f hj => ?_, fun j r hj => ?_⟩
      · simp only [Function.update_apply] at hj
        by_cases hji : j = i
        · simp [hji] at hj
        · simp only [if_neg hji] at hj
          exact h4 j f hj
      · simp only [Function.update_apply] at hj
        by_cases hji : j = i
        · simp [hji] at hj
        · simp only [if_neg hji] at hj
          exact h5 j r hj
  | joinExisting i f hi hp hin =>
      obtain ⟨h1, h2, h3, h4, h5⟩ := ih hempty
      obtain ⟨hf0, hfc⟩ := h2 f hin
      refine ⟨h1, h2, h3, fun j g hj => ?_, fun j r hj => ?_⟩
      · simp only [Function.update_apply] at hj
        by_cases hji : j = i
        · simp only [if_pos hji] at hj
          cases hj
          exact ⟨hf0, hfc⟩
        · simp only [if_neg hji] at hj
          exact h4 j g hj
      · simp only [Function.update_apply] at hj
        by_cases hji : j = i
        · simp [hji] at hj
        · simp only [if_neg hji] at hj
          exact h5 j r hj
  | joinFresh i hi hp hin =>
      obtain ⟨h1, h2, h3, h4, h5⟩ := ih hempty
      have hfc0 : s.fetchCount = 0 := h3 hin
      refine ⟨by show s.fetchCount + 1 ≤ 1; omega, fun f hf => ?_, fun hf => ?_,
        fun j g hj => ?_, fun j r hj => ?_⟩
      · have hf2 : s.fetchCount = f := by
          simpa using hf
        refine ⟨by omega, ?_⟩
        show s.fetchCount + 1 = 1
        omega
      · simp at hf
      · simp only [Function.update_apply] at hj
        by_cases hji : j = i
        · simp only [if_pos hji] at hj
          cases hj
          refine ⟨hfc0, ?_⟩
          show s.fetchCount + 1 = 1
          omega
        · simp only [if_neg hji] at hj
          obtain ⟨hg0, hfc1⟩ := h4 j g hj
          exact absurd hfc1 (by omega)
      · simp only [Function.update_apply] at hj
        by_cases hji : j = i
        · simp [hji] at hj
        · simp only [if_neg hji] at hj
          exact h5 j r hj
  | settle f hf =>
      exact absurd hempty (by simp)
  | observe i f hi hp hmem =>
      obtain ⟨h1, h2, h3, h4, h5⟩ := ih hempty
      rw [show s.settled = [] from hempty] at hmem
      exact absurd hmem (by simp)
  | deleteEntry f hin hmem =>
      rw [show s.settled = [] from hempty] at hmem
      exact absurd hmem (by simp)

/-- Every state reachable from the initial coalescing state with an
empty settled list satisfies the pre-settle invariant. -/
theorem preSettleInv_reachable {N : Nat} {results : Nat → Nat} {s : InFlightState}
    (h : CoReaches N results initInFlight s) (hempty : s.settled = []) :
    PreSettleInv s := by
  have main : s.settled = [] → PreSettleInv s := by
    clear hempty
    unfold CoReaches at h
    induction h with
    | refl =>
        intro _
        refine ⟨by decide, fun f hf => ?_, fun _ => rfl, fun i f hf => ?_, fun i r hf => ?_⟩
        · simp [initInFlight] at hf
        · simp [initInFlight] at hf
        · simp [initInFlight] at hf
    | tail hreach hstep ih =>
        intro he
        exact preSettleInv_step hstep ih he
  exact main hempty

/-- Invariant holding once every one of the N callers has joined fetch
0 while no fetch had settled: exactly one fetch is ever launched and
every caller is either still awaiting fetch 0 or done with its result. -/
def PostJoinInv (N : Nat) (results : Nat → Nat) (v : InFlightState) : Prop :=
  v.fetchCount = 1
  ∧ (∀ i, i < N →
      (v.phase i = CallerPhase.joined 0 ∨ v.phase i = CallerPhase.done (results 0)))

/-- One step preserves the post-join invariant: no caller is in a
phase from which a further fetch could be launched. -/
theorem postJoinInv_step {N : Nat} {results : Nat → Nat} {u v : InFlightState}
    (hstep : CoStep N results u v) (hq : PostJoinInv N results u) :
    PostJoinInv N results v := by
  obtain ⟨hq1, hq2⟩ := hq
  cases hstep with
  | cacheMiss i hi hp =>
      rcases hq2 i hi with h | h <;> rw [hp] at h <;> cases h
  | joinExisting i f hi hp hin =>
      rcases hq2 i hi with h | h <;> rw [hp] at h <;> cases h
  | joinFresh i hi hp hin =>
      rcases hq2 i hi with h | h <;> rw [hp] at h <;> cases h
  | settle f hf =>
      exact ⟨hq1, hq2⟩
  | observe i f hi hp hmem =>
      have hf0 : f = 0 := by
        rcases hq2 i hi with h | h
        · rw [hp] at h; cases h; rfl
        · rw [hp] at h; cases h
      refine ⟨hq1, fun j hj => ?_⟩
      simp only [Function.update_apply]
      by_cases hji : j = i
      · rw [if_pos hji, hf0]
        exact Or.inr rfl
      · rw [if_neg hji]
        exact hq2 j hj
  | deleteEntry f hin hmem =>
      exact ⟨hq1, hq2⟩

/-- The post-join invariant holds in every state reachable from a
state satisfying it. -/
theorem postJoinInv_reachable {N : Nat} {results : Nat → Nat} {s t : InFlightState}
    (h : CoReaches N results s t) (hq : PostJoinInv N results s) :
    PostJoinInv N results t := by
  unfold CoReaches at h
  induction h with
  | refl => exact hq
  | tail hreach hstep ih => exact postJoinInv_step hstep ih

/-- C1: in the event-loop interleaving semantics of concurrent
getUserData calls for one username, if all N callers (N positive) have
joined the in-flight entry in some reachable state s before any fetch
settled, then exactly one Fetcher invocation was launched, the count
never grows while the callers finish, every caller ends done with the
result of that single fetch, so all N receive the identical outcome;
moreover the in-flight entry is only ever created by the atomic
check-insert-launch step, which inserts the entry in the same
scheduling slice that launches the fetch, with no suspension point in
between. -/
theorem coalescing_spec (N : Nat) (results : Nat → Nat) (s t : InFlightState)
    (hN : 0 < N)
    (hs : CoReaches N results initInFlight s)
    (hjoin : ∀ i, i < N → ∃ f, s.phase i = CallerPhase.joined f)
    (hpre : s.settled = [])
    (ht : CoReaches N results s t)
    (hdone : ∀ i, i < N → ∃ r, t.phase i = CallerPhase.done r) :
    s.fetchCount = 1
    ∧ t.fetchCount = 1
    ∧ (∀ i, i < N → t.phase i = CallerPhase.done (results 0))
    ∧ (∀ i j ri rj, i < N → j < N → t.phase i = CallerPhase.done ri →
        t.phase j = CallerPhase.done rj → ri = rj)
    ∧ (∀ u v : InFlightState, CoStep N results u v → u.inFlight = none →
        v.inFlight = some u.fetchCount → v.fetchCount = u.fetchCount + 1) := by
  obtain ⟨h1, h2, h3, h4, h5⟩ := preSettleInv_reachable hs hpre
  obtain ⟨f0, hf0⟩ := hjoin 0 hN
  obtain ⟨_, hfc1⟩ := h4 0 f0 hf0
  have hQs : PostJoinInv N results s := by
    refine ⟨hfc1, fun i hi => ?_⟩
    obtain ⟨f, hf⟩ := hjoin i hi
    obtain ⟨hfz, _⟩ := h4 i f hf
    exact Or.inl (hfz ▸ hf)
  obtain ⟨hqt1, hqt2⟩ := postJoinInv_reachable ht hQs
  have hdoneAll : ∀ i, i < N → t.phase i = CallerPhase.done (results 0) := by
    intro i hi
    obtain ⟨r, hr⟩ := hdone i hi
    rcases hqt2 i hi with h | h
    · rw [hr] at h; cases h
    · exact h
  refine ⟨hfc1, hqt1, hdoneAll, fun i j ri rj hi hj hri hrj => ?_, fun u v hstep hun hvs => ?_⟩
  · have hi' := hdoneAll i hi
    have hj' := hdoneAll j hj
    rw [hri] at hi'
    rw [hrj] at hj'
    cases hi'
    cases hj'
    rfl
  · cases hstep with
    | cacheMiss i hi hp => rw [hun] at hvs; cases hvs
    | joinExisting i f hi hp hin => rw [hun] at hin; cases hin
    | joinFresh i hi hp hin => rfl
    | settle f hf => rw [hun] at hvs; cases hvs
    | observe i f hi hp hmem => rw [hun] at hvs; cases hvs
    | deleteEntry f hin hmem => rw [hun] at hin; cases hin

/-- Eventual fetch results used by the concrete coalescing run: every
fetch would produce the result coded 7. -/
def demoResults : Nat → Nat := fun _ => 7

/-- Concrete coalescing run, step 1: the cache read of caller 0
resolves with a miss. -/
def demoState1 : InFlightState :=
  { initInFlight with
    phase := Function.update initInFlight.phase 0 CallerPhase.missed }

/-- Step 2: the cache read of caller 1 resolves with a miss. -/
def demoState2 : InFlightState :=
  { demoState1 with
    phase := Function.update demoState1.phase 1 CallerPhase.missed }

/-- Step 3: caller 0 finds no in-flight entry and atomically launches
fetch 0 and registers it. -/
def demoState3 : InFlightState :=
  { demoState2 with
    phase := Function.update demoState2.phase 0 (CallerPhase.joined demoState2.fetchCount)
    inFlight := some demoState2.fetchCount
    fetchCount := demoState2.fetchCount + 1 }

/-- Step 4: caller 1 finds the in-flight entry of fetch 0 and joins it. -/
def demoState4 : InFlightState :=
  { demoState3 with
    phase := Function.update demoState3.phase 1 (CallerPhase.joined 0) }

/-- Step 5: fetch 0 settles. -/
def demoState5 : InFlightState :=
  { demoState4 with settled := 0 :: demoState4.settled }

/-- Step 6: caller 0 resumes with the result of fetch 0. -/
def demoState6 : InFlightState :=
  { demoState5 with
    phase := Function.update demoState5.phase 0 (CallerPhase.done (demoResults 0)) }

/-- Step 7: caller 1 resumes with the result of fetch 0. -/
def demoState7 : InFlightState :=
  { demoState6 with
    phase := Function.update demoState6.phase 1 (CallerPhase.done (demoResults 0)) }

/-- Witness for coalescing_spec: two concurrent callers, both joined
before the fetch settles; exactly one fetch is launched and both end
with the identical result 7. -/
theorem coalescing_spec_witness :
    demoState4.fetchCount = 1 ∧ demoState7.fetchCount = 1
    ∧ demoState7.phase 0 = CallerPhase.done 7
    ∧ demoState7.phase 1 = CallerPhase.done 7 := by
  have st1 : CoStep 2 demoResults initInFlight demoState1 :=
    CoStep.cacheMiss initInFlight 0 (by decide) rfl
  have st2 : CoStep 2 demoResults demoState1 demoState2 :=
    CoStep.cacheMiss demoState1 1 (by decide) rfl
  have st3 : CoStep 2 demoResults demoState2 demoState3 :=
    CoStep.joinFresh demoState2 0 (by decide) rfl rfl
  have st4 : CoStep 2 demoResults demoState3 demoState4 :=
    CoStep.joinExisting demoState3 1 0 (by decide) rfl rfl
  have st5 : CoStep 2 demoResults demoState4 demoState5 :=
    CoStep.settle demoState4 0 (by decide)
  have st6 : CoStep 2 demoResults demoState5 demoState6 :=
    CoStep.observe demoState5 0 0 (by decide) rfl (by decide)
  have st7 : CoStep 2 demoResults demoState6 demoState7 :=
    CoStep.observe demoState6 1 0 (by decide) rfl (by decide)
  have hs : CoReaches 2 demoResults initInFlight demoState4 :=
    Relation.ReflTransGen.tail
      (Relation.ReflTransGen.tail
        (Relation.ReflTransGen.tail
          (Relation.ReflTransGen.tail Relation.ReflTransGen.refl st1) st2) st3) st4
  have ht : CoReaches 2 demoResults demoState4 demoState7 :=
    Relation.ReflTransGen.tail
      (Relation.ReflTransGen.tail
        (Relation.ReflTransGen.tail Relation.ReflTransGen.refl st5) st6) st7
  have hjoin : ∀ i, i < 2 → ∃ f, demoState4.phase i = CallerPhase.joined f := by
    intro i hi
    interval_cases i
    · exact ⟨0, rfl⟩
    · exact ⟨0, rfl⟩
  have hdone : ∀ i, i < 2 → ∃ r, demoState7.phase i = CallerPhase.done r := by
    intro i hi
    interval_cases i
    · exact ⟨7, rfl⟩
    · exact ⟨7, rfl⟩
  have h := coalescing_spec 2 demoResults demoState4 demoState7
    (by decide) hs hjoin rfl ht hdone
  exact ⟨h.1, h.2.1, h.2.2.1 0 (by decide), h.2.2.1 1 (by decide)⟩
